import Mathlib

/-! Polacode host side (`src/extension.js`): a shallow embedding.

The host part of the extension converts the pixel and blob payloads sent by the
webview and hands them to the clipboard and to the file system, keeps the
background colour in the extension's global store, and listens to changes of
the selection.

JavaScript values are embedded as follows.

* a `Uint8Array` is the list of its elements, each below 256; for it
  `byteLength` and `length` are both the length of the list;
* a `Uint32Array` is the list of its elements read as unsigned 32-bit numbers;
* the bitwise operators work on the signed 32-bit reading (`ToInt32`) of their
  operands and are written out with explicit reductions modulo `2^32`;
* a string is a `String`, and the blob that is split is its list of characters;
* a statement that can throw returns the thrown value next to the state it
  leaves behind.
-/

namespace Polacode

/-! ## Numbers and typed arrays -/

/-- The values thrown by the code that is modelled. -/
inductive JsError where
  /-- A `TypeError` with its message. -/
  | typeError (msg : String)
  /-- An error raised by a host service (file system, clipboard). -/
  | hostError (msg : String)
  deriving DecidableEq, Repr

/-- `ToInt32`: the signed 32-bit reading of an integer. -/
def toInt32 (x : Int) : Int :=
  let m := x % 4294967296
  if 2147483648 ≤ m then m - 4294967296 else m

/-- `ToUint32`: the unsigned 32-bit reading of an integer. -/
def toUint32 (x : Int) : Nat :=
  (x % 4294967296).toNat

/-- `ToInt32 (ToNumber v)` for the result `v` of an indexed read of a typed
array: an element is its own value, and `undefined` (a read outside the array)
becomes `NaN` and then `0`. -/
def readToInt32 : Option Nat → Int
  | some b => toInt32 (Int.ofNat b)
  | none => 0

/-- The operator `a << k` on operands already reduced by `ToInt32`: the shift
count is taken modulo 32 and the result is read back as a signed 32-bit
number. -/
def jsShl (a : Int) (k : Nat) : Int :=
  toInt32 (a * 2 ^ (k % 32))

/-- The operator `a | b` on operands already reduced by `ToInt32`: the bitwise
or of the two 32-bit patterns, read back as a signed 32-bit number. -/
def jsOr (a b : Int) : Int :=
  toInt32 (Int.ofNat (toUint32 a ||| toUint32 b))

/-- The expression `0 | (byte1 << 24) | (byte2 << 16) | (byte3 << 8) | byte4`
of line 27, on the four values read from the array. -/
def bits32 (byte1 byte2 byte3 byte4 : Option Nat) : Int :=
  jsOr (jsOr (jsOr (jsOr 0 (jsShl (readToInt32 byte1) 24)) (jsShl (readToInt32 byte2) 16))
    (jsShl (readToInt32 byte3) 8)) (readToInt32 byte4)

/-- The assignment `uint32[i32] = v`: the value is stored as `ToUint32 v`, and
an index outside the array leaves the array as it is. -/
def uint32Store (uint32 : List Nat) (i32 : Nat) (v : Int) : List Nat :=
  uint32.set i32 (toUint32 v)

/-- The loop of lines 22-29, `for (let i8 = 0, i32 = 0; i8 <= uint8.length; i32++)`,
from the loop variables `i8`, `i32` and the current contents of `uint32`.
Each round reads four elements (the reads advance `i8` by four) and stores one
word. The first argument bounds the number of rounds; `none` is returned only
when the bound is used up while the loop condition still holds. -/
def packLoop (uint8 : List Nat) : Nat → Nat → Nat → List Nat → Option (List Nat)
  | 0, i8, _, uint32 => if i8 ≤ uint8.length then none else some uint32
  | fuel + 1, i8, i32, uint32 =>
    if i8 ≤ uint8.length then
      let byte1 := uint8[i8]?
      let byte2 := uint8[i8 + 1]?
      let byte3 := uint8[i8 + 2]?
      let byte4 := uint8[i8 + 3]?
      packLoop uint8 fuel (i8 + 4) (i32 + 1)
        (uint32Store uint32 i32 (bits32 byte1 byte2 byte3 byte4))
    else some uint32

/-- The argument `uint8` of `copyUint8ArrayToUint32Array`, which is `data.pixels` as
the message channel delivers it: nothing at all (`undefined`), a `Uint8Array`,
a plain `Array` of numbers, or an object with the keys `0`, `1`, ... and
neither `length` nor `byteLength` (a typed array that went through JSON). -/
inductive PixelArg where
  /-- No value: `undefined`. -/
  | missing
  /-- A `Uint8Array` with the given elements. -/
  | uint8Array (bytes : List Nat)
  /-- A plain `Array` with the given elements; it has `length` and no
  `byteLength`. -/
  | plainArray (elements : List Nat)
  /-- An object with the given values under the keys `0`, `1`, ...; it has neither
  `length` nor `byteLength`. -/
  | indexedObject (values : List Nat)
  deriving DecidableEq, Repr

/-- The outcome of `copyUint8ArrayToUint32Array`. -/
inductive PackResult where
  /-- The returned `Uint32Array`. -/
  | returned (uint32 : List Nat)
  /-- A thrown value. -/
  | thrown (e : JsError)
  /-- The round bound of `packLoop` was too small (never the case, see
  `packLoop_terminates`). -/
  | outOfFuel
  deriving DecidableEq, Repr

/-- The function `copyUint8ArrayToUint32Array` of lines 15-31. A missing argument is
falsy and throws; arrays and objects are truthy, the empty ones too.

* For a `Uint8Array`, `new Uint32Array(uint8.byteLength / 4)` has `ToIndex` of
  the quotient many elements, which is the quotient rounded down, all zero.
* For a plain `Array`, `uint8.byteLength` is `undefined`, the quotient is `NaN`
  and `new Uint32Array(NaN)` has no element; the loop runs over `uint8.length`
  as before and every store falls outside the array.
* For an object without `length`, the array has no element either, and the loop
  condition `0 <= undefined` is false, so no round is run.

The loop runs at most `length / 4 + 1` rounds, which is the bound given to
`packLoop`. -/
def copyUint8ArrayToUint32Array : PixelArg → PackResult
  | .missing => .thrown (.typeError "Missing argument")
  | .uint8Array uint8 =>
    match packLoop uint8 (uint8.length / 4 + 1) 0 0 (List.replicate (uint8.length / 4) 0) with
    | some uint32 => .returned uint32
    | none => .outOfFuel
  | .plainArray uint8 =>
    match packLoop uint8 (uint8.length / 4 + 1) 0 0 [] with
    | some uint32 => .returned uint32
    | none => .outOfFuel
  | .indexedObject _ => .returned []

/-- The word `(R << 24) | (G << 16) | (B << 8) | A` of pixel `i` of a byte
sequence, as an unsigned number. -/
def wordAt (buf : List Nat) (i : Nat) : Nat :=
  buf.getD (4 * i) 0 * 2 ^ 24 + buf.getD (4 * i + 1) 0 * 2 ^ 16
    + buf.getD (4 * i + 2) 0 * 2 ^ 8 + buf.getD (4 * i + 3) 0

/-- The words of the first `n` pixels of a byte sequence. -/
def wordsOf (buf : List Nat) (n : Nat) : List Nat :=
  (List.range n).map (wordAt buf)

/-! ## The serialized blob -/

/-- `String.prototype.split(',')` on the characters of a string: the pieces
between the commas, in order. A string without a comma, the empty string
included, is one piece. -/
def splitComma : List Char → List (List Char)
  | [] => [[]]
  | c :: cs =>
    if c = ',' then [] :: splitComma cs
    else
      match splitComma cs with
      | [] => [[c]]
      | tok :: toks => (c :: tok) :: toks

/-- The value of an ASCII decimal digit. -/
def digitValue (c : Char) : Option Nat :=
  if 48 ≤ c.toNat ∧ c.toNat ≤ 57 then some (c.toNat - 48) else none

/-- The value of a run of ASCII decimal digits after the digits read so far. -/
def digitsValue : Nat → List Char → Option Nat
  | acc, [] => some acc
  | acc, c :: cs =>
    match digitValue c with
    | some d => digitsValue (acc * 10 + d) cs
    | none => none

/-- The value of a token that is a run of one or more ASCII decimal digits, and
`none` for every other token. -/
def decimalValue : List Char → Option Nat
  | [] => none
  | c :: cs => digitsValue 0 (c :: cs)

/-- The element conversion of `new Uint8Array(tokens)`: `ToUint8 (ToNumber tok)`.
For a run of decimal digits with a value below `2^53` the Number is exactly that
value and `ToUint8` reduces it modulo 256. For every other token (empty, signed,
fractional, hexadecimal, not numeric, or too long to be exact) the integer part
of its Number, with 0 for `NaN` and the infinities, is left to the engine as
`truncNumber`; `ToUint8` reduces that modulo 256 as well. -/
def tokenToUint8 (truncNumber : List Char → Int) (tok : List Char) : Nat :=
  match decimalValue tok with
  | some v => if v < 9007199254740992 then v % 256 else (truncNumber tok % 256).toNat
  | none => (truncNumber tok % 256).toNat

/-- The bytes of `new Uint8Array(serializeBlob.split(','))`, line 9. -/
def blobBytes (truncNumber : List Char → Int) (serializeBlob : String) : List Nat :=
  (splitComma serializeBlob.toList).map (tokenToUint8 truncNumber)

/-- Modelled from the spec: the encoder of the rendering surface, which is not part
of `src/`: each byte is rendered in decimal and the renderings are joined with
commas. -/
def serializeBytes (bs : List Nat) : String :=
  String.mk (List.intercalate [','] (bs.map (Nat.toDigits 10)))

/-! ## The host: external services and state -/

/-- The services the code calls and does not define. -/
structure Host where
  /-- The integer part of `ToNumber` on the tokens that are not plain decimals
  (see `tokenToUint8`). -/
  truncNumber : List Char → Int
  /-- What `fs.writeFileSync` throws for a path, if it throws. -/
  writeError : String → Option JsError
  /-- What `clip.setImage` throws for a word buffer and its size, if it throws. -/
  setImageError : List Nat → Nat → Nat → Option JsError

/-- The files written so far, by path, the latest first. -/
abbrev Files := List (String × List Nat)

/-- The call `fs.writeFileSync(fileName, bytes)`: the bytes become the whole
contents of the file, unless the call throws, which leaves the files alone. -/
def writeFileSync (host : Host) (fileName : String) (bytes : List Nat) (files : Files) :
    Files × Option JsError :=
  match host.writeError fileName with
  | some e => (files, some e)
  | none => ((fileName, bytes) :: files.filter (fun f => f.1 ≠ fileName), none)

/-- The function `writeSerializedBlobToFile` of lines 8-11. Without a blob,
`serializeBlob.split` throws a `TypeError`. Otherwise the tokens between the
commas are turned into bytes and written; nothing in between can throw. -/
def writeSerializedBlobToFile (host : Host) (serializeBlob : Option String)
    (fileName : String) (files : Files) : Files × Option JsError :=
  match serializeBlob with
  | none => (files, some (.typeError "Cannot read properties of undefined (reading 'split')"))
  | some blob => writeFileSync host fileName (blobBytes host.truncNumber blob) files

/-- The field `dimensions` of the data of a `shootToClipboard` message. -/
structure Dimensions where
  width : Nat
  height : Nat
  deriving DecidableEq, Repr

/-- The field `data` of a message from the webview; a field that is not there is
`none` (for `pixels`: `missing`). -/
structure MessageData where
  serializedBlob : Option String
  pixels : PixelArg
  dimensions : Option Dimensions
  bgColor : Option String
  deriving DecidableEq, Repr

/-- A message from the webview, `{ type, data }`. -/
structure Message where
  type : String
  data : Option MessageData
  deriving DecidableEq, Repr

/-- The values read by `syncSettings` from the configuration. -/
structure Settings where
  shadow : String
  transparentBackground : String
  backgroundColor : String
  target : String
  fontLigatures : String
  deriving DecidableEq, Repr

/-- The messages posted to a webview. -/
inductive SyncMessage where
  | restore (innerHTML : String) (bgColor : String)
  | init (fontFamily : String) (bgColor : String)
  | restoreBgColor (bgColor : String)
  | updateSettings (shadow transparentBackground backgroundColor target ligature : String)
  | update
  deriving DecidableEq, Repr

/-- A save dialog that is open: the default location it was opened with and the
`data` of the message that opened it, which its callback uses. -/
structure SaveDialog where
  defaultUri : String
  data : Option MessageData
  deriving DecidableEq, Repr

/-- One call of `clip.setImage`: the words of the buffer handed over (the
`Buffer` is a view of the storage of a copy of the word array) and the size. -/
structure SetImageCall where
  data : List Nat
  width : Nat
  height : Nat
  deriving DecidableEq, Repr

/-- The variables of `activate` together with the state of the services it
uses. Panels are numbered in the order of their creation. -/
structure HostState where
  /-- The variable `panel`, shared by all callbacks. -/
  panel : Option Nat
  /-- The variable `lastUsedImageUri`. -/
  lastUsedImageUri : String
  /-- The store `context.globalState`. -/
  globalState : List (String × String)
  /-- The number of panels created so far. -/
  panels : Nat
  /-- The panels that have been disposed. -/
  disposed : List Nat
  /-- The selection listeners that are attached, each named by the panel at whose
  creation it was set up, in the order of registration. -/
  selectionListeners : List Nat
  /-- The messages posted, each with the panel it was posted to, oldest first. -/
  posted : List (Nat × SyncMessage)
  /-- The files written. -/
  files : Files
  /-- The calls of `clip.setImage`, oldest first. -/
  setImageCalls : List SetImageCall
  /-- The values passed to `console.log`, oldest first. -/
  consoleLog : List JsError
  /-- The texts passed to `showInformationMessage`. -/
  notices : List String
  /-- The commands run with `executeCommand`. -/
  commands : List String
  /-- The save dialogs that are open. -/
  saveDialogs : List SaveDialog
  /-- The configuration values and `editor.fontFamily`. -/
  configuration : Settings
  fontFamily : String
  /-- The values thrown out of callbacks, which the editor receives. -/
  uncaught : List JsError
  deriving DecidableEq, Repr

/-- A callback has run: the state it leaves and the value it threw, if any. -/
structure Outcome where
  state : HostState
  thrown : Option JsError
  deriving DecidableEq, Repr

/-- `context.globalState.get(key, defaultValue)`. -/
def globalStateGet (store : List (String × String)) (key defaultValue : String) : String :=
  (store.lookup key).getD defaultValue

/-- `context.globalState.update(key, value)`; the value `undefined` removes the
key. -/
def globalStateUpdate (store : List (String × String)) (key : String)
    (value : Option String) : List (String × String) :=
  match value with
  | some v => (key, v) :: store.filter (fun kv => kv.1 ≠ key)
  | none => store.filter (fun kv => kv.1 ≠ key)

/-- The call `panel.webview.postMessage(msg)` of lines 48, 78, 130 and 152, on the
panel in the variable `panel`. -/
def postMessage (msg : SyncMessage) (st : HostState) : Outcome :=
  match st.panel with
  | some p => ⟨{ st with posted := st.posted ++ [(p, msg)] }, none⟩
  | none => ⟨st, some (.typeError "Cannot read properties of undefined (reading 'webview')")⟩

/-- The function `syncSettings` of lines 149-160. -/
def syncSettings (st : HostState) : Outcome :=
  postMessage (.updateSettings st.configuration.shadow st.configuration.transparentBackground
    st.configuration.backgroundColor st.configuration.target st.configuration.fontLigatures) st

/-- The block of `case 'shootToClipboard'`, lines 116-127. The call of
`copyUint8ArrayToUint32Array` stands before the `try`; the argument of
`clip.setImage`, with its reads of `data.dimensions`, and the call itself are
inside it, and what they throw is passed to `console.log`. -/
def shootToClipboard (host : Host) (data : Option MessageData) (st : HostState) : Outcome :=
  match data with
  | none => ⟨st, some (.typeError "Cannot read properties of undefined (reading 'pixels')")⟩
  | some d =>
    match copyUint8ArrayToUint32Array d.pixels with
    | .thrown e => ⟨st, some e⟩
    | .outOfFuel => ⟨st, some (.hostError "packLoop: round bound used up")⟩
    | .returned uint32Pixels =>
      match d.dimensions with
      | none =>
        ⟨{ st with consoleLog := st.consoleLog ++
            [.typeError "Cannot read properties of undefined (reading 'width')"] }, none⟩
      | some dims =>
        let st1 : HostState :=
          { st with setImageCalls := st.setImageCalls ++ [⟨uint32Pixels, dims.width, dims.height⟩] }
        match host.setImageError uint32Pixels dims.width dims.height with
        | some e => ⟨{ st1 with consoleLog := st1.consoleLog ++ [e] }, none⟩
        | none => ⟨st1, none⟩

/-- The listener of `setupMessageListeners`, lines 98-146: the `switch` on the
type of the message. -/
def handleMessage (host : Host) (msg : Message) (st : HostState) : Outcome :=
  if msg.type = "shoot" then
    ⟨{ st with saveDialogs := st.saveDialogs ++ [⟨st.lastUsedImageUri, msg.data⟩] }, none⟩
  else if msg.type = "shootToClipboard" then
    shootToClipboard host msg.data st
  else if msg.type = "getAndUpdateCacheAndSettings" then
    match postMessage (.restoreBgColor (globalStateGet st.globalState "polacode.bgColor" "#2e3440"))
      st with
    | ⟨st1, some e⟩ => ⟨st1, some e⟩
    | ⟨st1, none⟩ => syncSettings st1
  else if msg.type = "updateBgColor" then
    match msg.data with
    | none => ⟨st, some (.typeError "Cannot read properties of undefined (reading 'bgColor')")⟩
    | some d =>
      ⟨{ st with globalState := globalStateUpdate st.globalState "polacode.bgColor" d.bgColor },
        none⟩
  else if msg.type = "invalidPasteContent" then
    ⟨{ st with notices := st.notices ++ ["Pasted content is invalid. Only copy from VS Code and check if your shortcuts for copy/paste have conflicts."] },
      none⟩
  else ⟨st, none⟩

/-- The callback given to `then` in `case 'shoot'`, lines 108-113, run when the
save dialog answers with a location or with nothing. -/
def saveDialogThen (host : Host) (data : Option MessageData) (uri : Option String)
    (st : HostState) : Outcome :=
  match uri with
  | none => ⟨st, none⟩
  | some fsPath =>
    match data with
    | none =>
      ⟨st, some (.typeError "Cannot read properties of undefined (reading 'serializedBlob')")⟩
    | some d =>
      match writeSerializedBlobToFile host d.serializedBlob fsPath st.files with
      | (files, some e) => ⟨{ st with files := files }, some e⟩
      | (files, none) => ⟨{ st with files := files, lastUsedImageUri := fsPath }, none⟩

/-- A selection of the editor. -/
structure Selection where
  isEmpty : Bool
  deriving DecidableEq, Repr

/-- The listener of `setupSelectionSync`, lines 163-170, on the selections of
the event. For a first selection that is not empty it runs the copy command
and then calls `panel.postMessage` (line 166). A webview panel has no method
`postMessage`: messages go through `panel.webview`, as on lines 48, 78, 130
and 152. So that call throws a `TypeError` and no message is posted. -/
def selectionListener (selections : List Selection) (st : HostState) : Outcome :=
  match selections.head? with
  | none => ⟨st, none⟩
  | some sel =>
    if sel.isEmpty then ⟨st, none⟩
    else
      let st1 : HostState :=
        { st with commands := st.commands ++ ["editor.action.clipboardCopyAction"] }
      match st1.panel with
      | some _ => ⟨st1, some (.typeError "panel.postMessage is not a function")⟩
      | none =>
        ⟨st1, some (.typeError "Cannot read properties of undefined (reading 'postMessage')")⟩

/-- What happens to the extension after `activate`. -/
inductive Event where
  /-- The command `polacode.activate` is run. -/
  | activateCommand
  /-- The editor restores a panel with the saved `state.innerHTML`. -/
  | deserialize (innerHTML : String)
  /-- A panel is closed. -/
  | dispose (p : Nat)
  /-- The selection of the editor changes. -/
  | selectionChange (selections : List Selection)
  /-- The webview of a panel sends a message. -/
  | message (p : Nat) (msg : Message)
  /-- The save dialog at a position of the open ones answers. -/
  | saveDialogAnswer (i : Nat) (uri : Option String)
  deriving DecidableEq, Repr

/-- The state after a callback, a thrown value being handed to the editor. -/
def settle (o : Outcome) : HostState :=
  match o.thrown with
  | some e => { o.state with uncaught := o.state.uncaught ++ [e] }
  | none => o.state

/-- One event, handled to completion.

* The command `polacode.activate` (lines 62-84) puts the new panel into the
  variable `panel`, sets up a selection listener and makes the disposal of the
  panel detach it, sets up the message listener of the panel, posts `init` and
  calls `syncSettings`.
* `deserializeWebviewPanel` (lines 46-57) puts the panel it is given into the
  variable `panel`, posts `restore`, and sets up the same listeners.
* The disposal of a panel runs the callback of its `onDidDispose`, which
  detaches the selection listener set up with that panel.
* A change of the selection calls every attached selection listener.
* A message of a webview reaches the message listener of its panel, which
  exists from the creation of the panel to its disposal.
* The answer of a save dialog runs the callback it was opened with.

The assignments to `panel.webview.html` are left out. -/
def step (host : Host) (ev : Event) (st : HostState) : HostState :=
  match ev with
  | .activateCommand =>
    let st1 : HostState :=
      { st with
        panel := some st.panels
        panels := st.panels + 1
        selectionListeners := st.selectionListeners ++ [st.panels] }
    match postMessage (.init st1.fontFamily
        (globalStateGet st1.globalState "polacode.bgColor" "#2e3440")) st1 with
    | ⟨st2, some e⟩ => settle ⟨st2, some e⟩
    | ⟨st2, none⟩ => settle (syncSettings st2)
  | .deserialize innerHTML =>
    let st1 : HostState := { st with panel := some st.panels, panels := st.panels + 1 }
    match postMessage (.restore innerHTML
        (globalStateGet st1.globalState "polacode.bgColor" "#2e3440")) st1 with
    | ⟨st2, some e⟩ => settle ⟨st2, some e⟩
    | ⟨st2, none⟩ =>
      { st2 with selectionListeners := st2.selectionListeners ++ [st.panels] }
  | .dispose p =>
    if p < st.panels ∧ p ∉ st.disposed then
      { st with
        disposed := st.disposed ++ [p]
        selectionListeners := st.selectionListeners.filter (fun l => l ≠ p) }
    else st
  | .selectionChange selections =>
    st.selectionListeners.foldl (fun s _ => settle (selectionListener selections s)) st
  | .message p msg =>
    if p < st.panels ∧ p ∉ st.disposed then settle (handleMessage host msg st) else st
  | .saveDialogAnswer i uri =>
    match st.saveDialogs[i]? with
    | none => st
    | some dialog =>
      settle (saveDialogThen host dialog.data uri
        { st with saveDialogs := st.saveDialogs.eraseIdx i })

/-- The events of a list, one after the other. -/
def run (host : Host) (evs : List Event) (st : HostState) : HostState :=
  evs.foldl (fun s ev => step host ev s) st

/-- The state right after `activate`: no panel yet, the default image location,
and whatever the global store and the configuration hold. -/
def initialState (desktopImage : String) (globalState : List (String × String))
    (configuration : Settings) (fontFamily : String) : HostState :=
  { panel := none
    lastUsedImageUri := desktopImage
    globalState := globalState
    panels := 0
    disposed := []
    selectionListeners := []
    posted := []
    files := []
    setImageCalls := []
    consoleLog := []
    notices := []
    commands := []
    saveDialogs := []
    configuration := configuration
    fontFamily := fontFamily
    uncaught := [] }

/-- A host whose file system and clipboard accept every call. Its `truncNumber`
is used only on blobs whose tokens are all plain decimals. -/
def plainHost : Host :=
  { truncNumber := fun _ => 0
    writeError := fun _ => none
    setImageError := fun _ _ _ => none }

/-- A host whose clipboard rejects every image. -/
def noClipboardHost : Host :=
  { truncNumber := fun _ => 0
    writeError := fun _ => none
    setImageError := fun _ _ _ => some (.hostError "clipboard unavailable") }

/-- The state right after `activate` with nothing in the global store. -/
def freshState : HostState :=
  initialState "/home/user/Desktop/code.png" []
    ⟨"true", "false", "#f2f2f2", "container", "false"⟩ "monospace"

/-- The message `shootToClipboard` with the given pixels and size and no other
field. -/
def clipboardMessage (pixels : PixelArg) (dimensions : Option Dimensions) : Message :=
  ⟨"shootToClipboard", some ⟨none, pixels, dimensions, none⟩⟩

/-- The message `updateBgColor` with the given colour and no other field. -/
def updateBgColorMessage (c : String) : Message :=
  ⟨"updateBgColor", some ⟨none, .missing, none, some c⟩⟩

/-- The message `getAndUpdateCacheAndSettings`, which has no data. -/
def queryStateMessage : Message :=
  ⟨"getAndUpdateCacheAndSettings", none⟩

/-- The message `updateSettings` that `syncSettings` composes in a state. -/
def settingsMessage (st : HostState) : SyncMessage :=
  .updateSettings st.configuration.shadow st.configuration.transparentBackground
    st.configuration.backgroundColor st.configuration.target st.configuration.fontLigatures

/-- A host whose file system rejects every write. -/
def readOnlyHost : Host :=
  { truncNumber := fun _ => 0
    writeError := fun _ => some (.hostError "EACCES: permission denied")
    setImageError := fun _ _ _ => none }

/-- The data of a `shoot` message whose blob is the first four bytes of a PNG
file. -/
def pngData : MessageData :=
  ⟨some "137,80,78,71", .missing, none, none⟩

/-- The state after the `shoot` message with `pngData` has been handled right
after `activate`. -/
def shootState : HostState :=
  (handleMessage plainHost ⟨"shoot", some pngData⟩ freshState).state

/-! ## Facts about the 32-bit operators -/

theorem toUint32_lt (x : Int) : toUint32 x < 4294967296 := by
  unfold toUint32
  omega

theorem toUint32_toInt32 (x : Int) : toUint32 (toInt32 x) = toUint32 x := by
  unfold toUint32 toInt32
  simp only []
  split <;> omega

theorem toUint32_natCast (n : Nat) : toUint32 (n : Int) = n % 4294967296 := by
  unfold toUint32
  omega

theorem toUint32_jsOr (a b : Int) : toUint32 (jsOr a b) = toUint32 a ||| toUint32 b := by
  have ha : toUint32 a < 2 ^ 32 := toUint32_lt a
  have hb : toUint32 b < 2 ^ 32 := toUint32_lt b
  have h := Nat.or_lt_two_pow ha hb
  unfold jsOr
  rw [toUint32_toInt32]
  show toUint32 ((toUint32 a ||| toUint32 b : Nat) : Int) = _
  rw [toUint32_natCast]
  exact Nat.mod_eq_of_lt h

theorem toUint32_readToInt32 (b : Nat) (hb : b < 256) :
    toUint32 (readToInt32 (some b)) = b := by
  show toUint32 (toInt32 (b : Int)) = b
  rw [toUint32_toInt32, toUint32_natCast]
  omega

theorem toUint32_jsShl (b k : Nat) (hb : b < 256) (hk : k ≤ 24) :
    toUint32 (jsShl (readToInt32 (some b)) k) = b * 2 ^ k := by
  have hb32 : readToInt32 (some b) = (b : Int) := by
    show toInt32 (b : Int) = b
    unfold toInt32
    simp only []
    split <;> omega
  have hk32 : k % 32 = k := by omega
  have hpow : 2 ^ k ≤ 2 ^ 24 := Nat.pow_le_pow_right (by decide) hk
  have hlt : b * 2 ^ k < 4294967296 := by
    calc b * 2 ^ k ≤ 255 * 2 ^ 24 := Nat.mul_le_mul (by omega) hpow
      _ < 4294967296 := by decide
  unfold jsShl
  rw [toUint32_toInt32, hb32, hk32]
  have hcast : (b : Int) * 2 ^ k = ((b * 2 ^ k : Nat) : Int) := by push_cast; rfl
  rw [hcast, toUint32_natCast]
  exact Nat.mod_eq_of_lt hlt

/-- The word stored by one round of the loop, for four bytes read inside the
array. -/
theorem toUint32_bits32 (b1 b2 b3 b4 : Nat) (h1 : b1 < 256) (h2 : b2 < 256)
    (h3 : b3 < 256) (h4 : b4 < 256) :
    toUint32 (bits32 (some b1) (some b2) (some b3) (some b4))
      = b1 * 2 ^ 24 + b2 * 2 ^ 16 + b3 * 2 ^ 8 + b4 := by
  unfold bits32
  rw [toUint32_jsOr, toUint32_jsOr, toUint32_jsOr, toUint32_jsOr,
    toUint32_jsShl b1 24 h1 (by decide), toUint32_jsShl b2 16 h2 (by decide),
    toUint32_jsShl b3 8 h3 (by decide), toUint32_readToInt32 b4 h4]
  have h0 : toUint32 0 = 0 := by decide
  rw [h0, Nat.zero_or]
  have e1 : b1 * 2 ^ 24 ||| b2 * 2 ^ 16 = b1 * 2 ^ 24 + b2 * 2 ^ 16 := by
    have := Nat.mul_add_lt_is_or (show b2 * 2 ^ 16 < 2 ^ 24 by omega) b1
    rw [Nat.mul_comm (2 ^ 24) b1] at this
    exact this.symm
  have e2 : (b1 * 2 ^ 24 + b2 * 2 ^ 16) ||| b3 * 2 ^ 8
      = b1 * 2 ^ 24 + b2 * 2 ^ 16 + b3 * 2 ^ 8 := by
    have := Nat.mul_add_lt_is_or (show b3 * 2 ^ 8 < 2 ^ 16 by omega) (b1 * 2 ^ 8 + b2)
    have e : 2 ^ 16 * (b1 * 2 ^ 8 + b2) = b1 * 2 ^ 24 + b2 * 2 ^ 16 := by omega
    rw [e] at this
    exact this.symm
  have e3 : (b1 * 2 ^ 24 + b2 * 2 ^ 16 + b3 * 2 ^ 8) ||| b4
      = b1 * 2 ^ 24 + b2 * 2 ^ 16 + b3 * 2 ^ 8 + b4 := by
    have := Nat.mul_add_lt_is_or (show b4 < 2 ^ 8 by omega) (b1 * 2 ^ 16 + b2 * 2 ^ 8 + b3)
    have e : 2 ^ 8 * (b1 * 2 ^ 16 + b2 * 2 ^ 8 + b3)
        = b1 * 2 ^ 24 + b2 * 2 ^ 16 + b3 * 2 ^ 8 := by omega
    rw [e] at this
    exact this.symm
  rw [e1, e2, e3]

/-- A round whose reads all fall outside the array computes the word 0. -/
theorem bits32_undefined : bits32 none none none none = 0 := by decide

/-! ## The packing loop -/

theorem getElem?_eq_some_getD (buf : List Nat) (j : Nat) (hj : j < buf.length) :
    buf[j]? = some (buf.getD j 0) := by
  rw [List.getD_eq_getElem?_getD, List.getElem?_eq_getElem hj]
  rfl

theorem getD_lt_256 (buf : List Nat) (hbytes : ∀ b ∈ buf, b < 256) (j : Nat) :
    buf.getD j 0 < 256 := by
  rw [List.getD_eq_getElem?_getD]
  by_cases hj : j < buf.length
  · rw [List.getElem?_eq_getElem hj]
    exact hbytes _ (List.getElem_mem hj)
  · rw [List.getElem?_eq_none (by omega)]
    decide

/-- One round of the loop at a pixel that lies inside the array stores the word
of that pixel. -/
theorem round_word (uint8 : List Nat) (hbytes : ∀ b ∈ uint8, b < 256) (k : Nat)
    (hk : 4 * k + 3 < uint8.length) :
    toUint32 (bits32 uint8[4 * k]? uint8[4 * k + 1]? uint8[4 * k + 2]? uint8[4 * k + 3]?)
      = wordAt uint8 k := by
  rw [getElem?_eq_some_getD uint8 (4 * k) (by omega),
    getElem?_eq_some_getD uint8 (4 * k + 1) (by omega),
    getElem?_eq_some_getD uint8 (4 * k + 2) (by omega),
    getElem?_eq_some_getD uint8 (4 * k + 3) (by omega)]
  exact toUint32_bits32 _ _ _ _ (getD_lt_256 uint8 hbytes _) (getD_lt_256 uint8 hbytes _)
    (getD_lt_256 uint8 hbytes _) (getD_lt_256 uint8 hbytes _)

/-- Loop invariant: started at pixel `k` with exactly the rounds that remain,
the loop returns, keeps the first `k` words of `uint32` and fills the others
with the words of the pixels; the last round, at `k = length / 4`, stores
outside `uint32` and changes nothing. -/
theorem packLoop_from (uint8 : List Nat) (hbytes : ∀ b ∈ uint8, b < 256) :
    ∀ (fuel k : Nat) (uint32 : List Nat), k ≤ uint8.length / 4 →
      fuel + k = uint8.length / 4 + 1 → uint32.length = uint8.length / 4 →
      packLoop uint8 fuel (4 * k) k uint32
        = some (uint32.take k
            ++ (List.range' k (uint8.length / 4 - k)).map (wordAt uint8)) := by
  intro fuel
  induction fuel with
  | zero => intro k uint32 hk hf _; omega
  | succ fuel ih =>
    intro k uint32 hk hf hlen
    have hcond : 4 * k ≤ uint8.length := by omega
    rw [packLoop, if_pos hcond]
    by_cases hlast : k = uint8.length / 4
    · have hfuel : fuel = 0 := by omega
      subst hfuel
      have hstop : ¬ (4 * k + 4 ≤ uint8.length) := by omega
      have hsame : ∀ v, uint32Store uint32 k v = uint32 := by
        intro v
        exact List.set_eq_of_length_le (by omega)
      simp only [hsame]
      rw [packLoop, if_neg hstop, hlast, Nat.sub_self]
      simp [List.take_of_length_le (Nat.le_of_eq hlen)]
    · have hk1 : k + 1 ≤ uint8.length / 4 := by omega
      have hin : 4 * k + 3 < uint8.length := by omega
      have hidx : 4 * k + 4 = 4 * (k + 1) := by omega
      simp only [uint32Store, round_word uint8 hbytes k hin]
      rw [hidx, ih (k + 1) _ hk1 (by omega) (by rw [List.length_set]; exact hlen)]
      have hsplit : uint8.length / 4 - k = (uint8.length / 4 - (k + 1)) + 1 := by omega
      have htake : (uint32.set k (wordAt uint8 k)).take (k + 1)
          = uint32.take k ++ [wordAt uint8 k] := by
        have hkl : k < uint32.length := by omega
        rw [List.take_succ, List.getElem?_set_self hkl]
        congr 1
        apply List.ext_getElem?
        intro i
        rw [List.getElem?_take, List.getElem?_take]
        split
        · rw [List.getElem?_set_ne (by omega)]
        · rfl
      rw [htake, hsplit, List.range'_succ]
      simp

/-- The loop returns whatever the bytes are: the bound `length / 4 + 1` on the
number of rounds is never used up. -/
theorem packLoop_isSome (uint8 : List Nat) :
    ∀ (fuel k i32 : Nat) (uint32 : List Nat), uint8.length / 4 + 1 ≤ fuel + k →
      (packLoop uint8 fuel (4 * k) i32 uint32).isSome = true := by
  intro fuel
  induction fuel with
  | zero =>
    intro k i32 uint32 hf
    have : ¬ (4 * k ≤ uint8.length) := by omega
    rw [packLoop, if_neg this]
    rfl
  | succ fuel ih =>
    intro k i32 uint32 hf
    rw [packLoop]
    split
    · have hidx : 4 * k + 4 = 4 * (k + 1) := by omega
      simp only [hidx]
      exact ih (k + 1) _ _ (by omega)
    · rfl

theorem packLoop_terminates (uint8 : List Nat) (uint32 : List Nat) :
    ∃ ws, packLoop uint8 (uint8.length / 4 + 1) 0 0 uint32 = some ws := by
  have h := packLoop_isSome uint8 (uint8.length / 4 + 1) 0 0 uint32 (by omega)
  exact Option.isSome_iff_exists.mp h

/-- The result of `copyUint8ArrayToUint32Array` on a `Uint8Array`: the words of its
`length / 4` whole pixels. -/
theorem copy_returns_wordsOf (uint8 : List Nat) (hbytes : ∀ b ∈ uint8, b < 256) :
    copyUint8ArrayToUint32Array (.uint8Array uint8)
      = .returned (wordsOf uint8 (uint8.length / 4)) := by
  have h := packLoop_from uint8 hbytes (uint8.length / 4 + 1) 0
    (List.replicate (uint8.length / 4) 0) (by omega) (by omega) (by simp)
  simp only [Nat.mul_zero, List.take_zero, List.nil_append, Nat.sub_zero] at h
  simp only [copyUint8ArrayToUint32Array, h]
  simp [wordsOf, List.range_eq_range']

theorem wordsOf_length (buf : List Nat) (n : Nat) : (wordsOf buf n).length = n := by
  simp [wordsOf]

theorem wordsOf_getElem? (buf : List Nat) (n i : Nat) (hi : i < n) :
    (wordsOf buf n)[i]? = some (wordAt buf i) := by
  simp [wordsOf, List.getElem?_range hi]

/-- For bytes, the sum of the four shifted samples is their bitwise or. -/
theorem sum_eq_or (b1 b2 b3 b4 : Nat) (h2 : b2 < 256) (h3 : b3 < 256) (h4 : b4 < 256) :
    b1 * 2 ^ 24 + b2 * 2 ^ 16 + b3 * 2 ^ 8 + b4
      = (b1 <<< 24) ||| (b2 <<< 16) ||| (b3 <<< 8) ||| b4 := by
  simp only [Nat.shiftLeft_eq]
  have e1 : b1 * 2 ^ 24 ||| b2 * 2 ^ 16 = b1 * 2 ^ 24 + b2 * 2 ^ 16 := by
    have := Nat.mul_add_lt_is_or (show b2 * 2 ^ 16 < 2 ^ 24 by omega) b1
    rw [Nat.mul_comm (2 ^ 24) b1] at this
    exact this.symm
  have e2 : (b1 * 2 ^ 24 + b2 * 2 ^ 16) ||| b3 * 2 ^ 8
      = b1 * 2 ^ 24 + b2 * 2 ^ 16 + b3 * 2 ^ 8 := by
    have := Nat.mul_add_lt_is_or (show b3 * 2 ^ 8 < 2 ^ 16 by omega) (b1 * 2 ^ 8 + b2)
    have e : 2 ^ 16 * (b1 * 2 ^ 8 + b2) = b1 * 2 ^ 24 + b2 * 2 ^ 16 := by omega
    rw [e] at this
    exact this.symm
  have e3 : (b1 * 2 ^ 24 + b2 * 2 ^ 16 + b3 * 2 ^ 8) ||| b4
      = b1 * 2 ^ 24 + b2 * 2 ^ 16 + b3 * 2 ^ 8 + b4 := by
    have := Nat.mul_add_lt_is_or (show b4 < 2 ^ 8 by omega) (b1 * 2 ^ 16 + b2 * 2 ^ 8 + b3)
    have e : 2 ^ 8 * (b1 * 2 ^ 16 + b2 * 2 ^ 8 + b3)
        = b1 * 2 ^ 24 + b2 * 2 ^ 16 + b3 * 2 ^ 8 := by omega
    rw [e] at this
    exact this.symm
  rw [e1, e2, e3]

theorem wordAt_take (buf : List Nat) (m i : Nat) (hi : 4 * i + 3 < m) :
    wordAt (buf.take m) i = wordAt buf i := by
  have h : ∀ j, j < m → (buf.take m).getD j 0 = buf.getD j 0 := by
    intro j hj
    rw [List.getD_eq_getElem?_getD, List.getD_eq_getElem?_getD, List.getElem?_take, if_pos hj]
  unfold wordAt
  rw [h _ (by omega), h _ (by omega), h _ (by omega), h _ (by omega)]

/-- On every `Uint8Array` the function returns. -/
theorem pack_returns_on_array (uint8 : List Nat) :
    ∃ ws, copyUint8ArrayToUint32Array (.uint8Array uint8) = .returned ws := by
  obtain ⟨ws, hws⟩ := packLoop_terminates uint8 (List.replicate (uint8.length / 4) 0)
  exact ⟨ws, by simp only [copyUint8ArrayToUint32Array, hws]⟩

theorem packLoop_nil (uint8 : List Nat) :
    ∀ (fuel i8 i32 : Nat) (r : List Nat), packLoop uint8 fuel i8 i32 [] = some r → r = [] := by
  intro fuel
  induction fuel with
  | zero =>
    intro i8 i32 r h
    rw [packLoop] at h
    split at h
    · cases h
    · cases h; rfl
  | succ fuel ih =>
    intro i8 i32 r h
    rw [packLoop] at h
    split at h
    · exact ih _ _ r h
    · cases h; rfl

/-- On a plain `Array`, whatever its elements, the function returns an array of
no words: none was allocated, and every store of the loop falls outside. -/
theorem pack_plainArray_empty (elements : List Nat) :
    copyUint8ArrayToUint32Array (.plainArray elements) = .returned [] := by
  obtain ⟨ws, hws⟩ := packLoop_terminates elements []
  have hnil := packLoop_nil elements _ _ _ ws hws
  subst hnil
  simp only [copyUint8ArrayToUint32Array, hws]

/-! ## Claims about `copyUint8ArrayToUint32Array` -/

/-- C1: for a byte sequence of length `4 * n`, `copyUint8ArrayToUint32Array`
returns exactly `n` words, and word `i`, read as an unsigned 32-bit number, is
`buf[4i] * 2^24 + buf[4i+1] * 2^16 + buf[4i+2] * 2^8 + buf[4i+3]`, which is
`(R << 24) | (G << 16) | (B << 8) | A`; this covers first bytes of 128 and
more, for which the signed intermediate result is negative. -/
theorem pack_exact_multiple (buf : List Nat) (n : Nat) (hlen : buf.length = 4 * n)
    (hbytes : ∀ b ∈ buf, b < 256) :
    ∃ ws, copyUint8ArrayToUint32Array (.uint8Array buf) = .returned ws ∧ ws.length = n ∧
      ∀ i r g b a, i < n → buf[4 * i]? = some r → buf[4 * i + 1]? = some g →
        buf[4 * i + 2]? = some b → buf[4 * i + 3]? = some a →
        ws[i]? = some (r * 2 ^ 24 + g * 2 ^ 16 + b * 2 ^ 8 + a) ∧
        r * 2 ^ 24 + g * 2 ^ 16 + b * 2 ^ 8 + a = (r <<< 24) ||| (g <<< 16) ||| (b <<< 8) ||| a := by
  have hn : buf.length / 4 = n := by omega
  refine ⟨wordsOf buf n, ?_, wordsOf_length buf n, ?_⟩
  · rw [copy_returns_wordsOf buf hbytes, hn]
  · intro i r g b a hi hr hg hb ha
    have mem : ∀ (j x : Nat), buf[j]? = some x → x < 256 := by
      intro j x hx
      exact hbytes x (List.getElem?_mem hx)
    refine ⟨?_, sum_eq_or r g b a (mem _ _ hg) (mem _ _ hb) (mem _ _ ha)⟩
    rw [wordsOf_getElem? buf n i hi]
    simp [wordAt, List.getD_eq_getElem?_getD, hr, hg, hb, ha]

/-- C1, at the one-pixel buffer `[255, 127, 255, 0]` of the comment in the
source, whose first byte makes the signed intermediate result negative. -/
theorem pack_exact_multiple_witness :
    ∃ ws, copyUint8ArrayToUint32Array (.uint8Array [255, 127, 255, 0]) = .returned ws ∧
      ws.length = 1 ∧
      ∀ i r g b a, i < 1 → [255, 127, 255, 0][4 * i]? = some r →
        [255, 127, 255, 0][4 * i + 1]? = some g →
        [255, 127, 255, 0][4 * i + 2]? = some b → [255, 127, 255, 0][4 * i + 3]? = some a →
        ws[i]? = some (r * 2 ^ 24 + g * 2 ^ 16 + b * 2 ^ 8 + a) ∧
        r * 2 ^ 24 + g * 2 ^ 16 + b * 2 ^ 8 + a = (r <<< 24) ||| (g <<< 16) ||| (b <<< 8) ||| a :=
  pack_exact_multiple [255, 127, 255, 0] 1 (by decide) (by decide)

/-- C6: `copyUint8ArrayToUint32Array` throws exactly when its argument is missing,
and then it throws the `TypeError` "Missing argument"; on every `Uint8Array`
it returns, and on the empty one it returns an array of no words. -/
theorem pack_throws_iff_missing :
    (∀ arg, (∃ e, copyUint8ArrayToUint32Array arg = .thrown e) ↔ arg = .missing) ∧
    copyUint8ArrayToUint32Array .missing = .thrown (.typeError "Missing argument") ∧
    (∀ uint8, ∃ ws, copyUint8ArrayToUint32Array (.uint8Array uint8) = .returned ws) ∧
    copyUint8ArrayToUint32Array (.uint8Array []) = .returned [] := by
  have hret := pack_returns_on_array
  refine ⟨?_, rfl, hret, by decide⟩
  intro arg
  constructor
  · rintro ⟨e, he⟩
    cases arg with
    | missing => rfl
    | uint8Array uint8 =>
      obtain ⟨ws, hws⟩ := hret uint8
      rw [hws] at he
      cases he
    | plainArray uint8 =>
      obtain ⟨ws, hws⟩ := packLoop_terminates uint8 []
      simp only [copyUint8ArrayToUint32Array, hws] at he
      cases he
    | indexedObject values => cases he
  · rintro rfl
    exact ⟨_, rfl⟩

/-- C9: for a byte sequence of any length `L`, `copyUint8ArrayToUint32Array` returns
exactly `L / 4` words (rounded down), word `i` being built from the bytes
`4i .. 4i+3`; the store of the extra last round, at index `L / 4`, leaves the
returned array as it is; and the result is that of the sequence cut to its
first `4 * (L / 4)` bytes, so the `L % 4` trailing bytes play no part. -/
theorem pack_any_length (buf : List Nat) (hbytes : ∀ b ∈ buf, b < 256) :
    ∃ ws, copyUint8ArrayToUint32Array (.uint8Array buf) = .returned ws ∧
      ws.length = buf.length / 4 ∧
      (∀ i, i < buf.length / 4 → ws[i]? = some (wordAt buf i)) ∧
      (∀ v, uint32Store ws (buf.length / 4) v = ws) ∧
      copyUint8ArrayToUint32Array (.uint8Array (buf.take (4 * (buf.length / 4))))
        = .returned ws := by
  refine ⟨wordsOf buf (buf.length / 4), copy_returns_wordsOf buf hbytes, wordsOf_length _ _,
    fun i hi => wordsOf_getElem? _ _ i hi, ?_, ?_⟩
  · intro v
    exact List.set_eq_of_length_le (by rw [wordsOf_length])
  · have hbytes2 : ∀ b ∈ buf.take (4 * (buf.length / 4)), b < 256 :=
      fun b hb => hbytes b (List.mem_of_mem_take hb)
    have hl : (buf.take (4 * (buf.length / 4))).length / 4 = buf.length / 4 := by
      rw [List.length_take]
      omega
    rw [copy_returns_wordsOf _ hbytes2, hl]
    refine congrArg PackResult.returned ?_
    unfold wordsOf
    apply List.map_congr_left
    intro i hi
    rw [List.mem_range] at hi
    exact wordAt_take buf _ i (by omega)

/-- C9, at a five-byte buffer: one word, the fifth byte dropped. -/
theorem pack_any_length_witness :
    ∃ ws, copyUint8ArrayToUint32Array (.uint8Array [1, 2, 3, 4, 5]) = .returned ws ∧
      ws.length = [1, 2, 3, 4, 5].length / 4 ∧
      (∀ i, i < [1, 2, 3, 4, 5].length / 4 → ws[i]? = some (wordAt [1, 2, 3, 4, 5] i)) ∧
      (∀ v, uint32Store ws ([1, 2, 3, 4, 5].length / 4) v = ws) ∧
      copyUint8ArrayToUint32Array
        (.uint8Array ([1, 2, 3, 4, 5].take (4 * ([1, 2, 3, 4, 5].length / 4))))
        = .returned ws :=
  pack_any_length [1, 2, 3, 4, 5] (by decide)

/-! ## The serialized blob: splitting and decimal tokens -/

theorem splitComma_ne_nil (cs : List Char) : splitComma cs ≠ [] := by
  cases cs with
  | nil => simp [splitComma]
  | cons c cs =>
    rw [splitComma]
    split
    · simp
    · split <;> simp

theorem splitComma_no_comma (t : List Char) (h : ',' ∉ t) : splitComma t = [t] := by
  induction t with
  | nil => rfl
  | cons c cs ih =>
    have hc : c ≠ ',' := fun e => h (by simp [e])
    have hcs : ',' ∉ cs := fun e => h (List.mem_cons_of_mem _ e)
    rw [splitComma, if_neg hc, ih hcs]

theorem splitComma_append (t rest : List Char) (h : ',' ∉ t) :
    splitComma (t ++ ',' :: rest) = t :: splitComma rest := by
  induction t with
  | nil => simp [splitComma]
  | cons c cs ih =>
    have hc : c ≠ ',' := fun e => h (by simp [e])
    have hcs : ',' ∉ cs := fun e => h (List.mem_cons_of_mem _ e)
    rw [List.cons_append, splitComma, if_neg hc, ih hcs]

/-- Splitting at the commas undoes joining with commas, for pieces without a
comma. -/
theorem splitComma_intercalate (toks : List (List Char)) (hne : toks ≠ [])
    (h : ∀ t ∈ toks, ',' ∉ t) : splitComma (List.intercalate [','] toks) = toks := by
  induction toks with
  | nil => exact absurd rfl hne
  | cons t ts ih =>
    cases ts with
    | nil =>
      simp only [List.intercalate, List.intersperse, List.flatten, List.append_nil]
      exact splitComma_no_comma t (h t (by simp))
    | cons u us =>
      have hrec := ih (by simp) (fun x hx => h x (List.mem_cons_of_mem _ hx))
      have e : List.intercalate [','] (t :: u :: us)
          = t ++ ',' :: List.intercalate [','] (u :: us) := by
        simp [List.intercalate, List.intersperse, List.flatten]
      rw [e, splitComma_append t _ (h t (by simp)), hrec]

set_option maxRecDepth 1000000 in
/-- The decimal rendering of a byte is a run of digits without a comma, and its
value is the byte. -/
theorem decimal_of_byte :
    ∀ b, b < 256 → decimalValue (Nat.toDigits 10 b) = some b ∧ ',' ∉ Nat.toDigits 10 b := by
  decide

theorem tokenToUint8_of_byte (truncNumber : List Char → Int) (b : Nat) (hb : b < 256) :
    tokenToUint8 truncNumber (Nat.toDigits 10 b) = b := by
  unfold tokenToUint8
  rw [(decimal_of_byte b hb).1]
  simp only []
  rw [if_pos (by omega)]
  omega

theorem tokenToUint8_lt (truncNumber : List Char → Int) (tok : List Char) :
    tokenToUint8 truncNumber tok < 256 := by
  unfold tokenToUint8
  split
  · split <;> omega
  · omega

theorem blobBytes_serializeBytes (truncNumber : List Char → Int) (bs : List Nat)
    (hne : 1 ≤ bs.length) (hbytes : ∀ b ∈ bs, b < 256) :
    blobBytes truncNumber (serializeBytes bs) = bs := by
  have hne2 : bs.map (Nat.toDigits 10) ≠ [] := by
    intro e
    rw [List.map_eq_nil_iff] at e
    rw [e] at hne
    exact absurd hne (by decide)
  have hcomma : ∀ t ∈ bs.map (Nat.toDigits 10), ',' ∉ t := by
    intro t ht
    obtain ⟨b, hb, rfl⟩ := List.mem_map.mp ht
    exact (decimal_of_byte b (hbytes b hb)).2
  unfold blobBytes serializeBytes
  show (splitComma (List.intercalate [','] (bs.map (Nat.toDigits 10)))).map _ = bs
  rw [splitComma_intercalate _ hne2 hcomma, List.map_map]
  conv_rhs => rw [← List.map_id bs]
  apply List.map_congr_left
  intro b hb
  exact tokenToUint8_of_byte truncNumber b (hbytes b hb)

/-! ## Claims about the serialized blob -/

theorem lookup_writeFileSync (host : Host) (fileName : String) (bytes : List Nat)
    (files : Files) (hw : host.writeError fileName = none) :
    (writeFileSync host fileName bytes files).2 = none ∧
      (writeFileSync host fileName bytes files).1.lookup fileName = some bytes := by
  unfold writeFileSync
  rw [hw]
  simp [List.lookup]

/-- C2: for every byte sequence of length at least 1, the text made of the
decimal renderings of the bytes joined with commas is decoded by
`writeSerializedBlobToFile` (split at the commas, each token converted to a
byte) to exactly that byte sequence, and these bytes are what is written to the
file. -/
theorem decode_undoes_encode (host : Host) (bs : List Nat) (fileName : String)
    (files : Files) (hne : 1 ≤ bs.length) (hbytes : ∀ b ∈ bs, b < 256)
    (hw : host.writeError fileName = none) :
    blobBytes host.truncNumber (serializeBytes bs) = bs ∧
    (writeSerializedBlobToFile host (some (serializeBytes bs)) fileName files).2 = none ∧
    (writeSerializedBlobToFile host (some (serializeBytes bs)) fileName files).1.lookup fileName
      = some bs := by
  have h := blobBytes_serializeBytes host.truncNumber bs hne hbytes
  refine ⟨h, ?_⟩
  simp only [writeSerializedBlobToFile, h]
  exact lookup_writeFileSync host fileName bs files hw

/-- C2, at the first four bytes of a PNG file. -/
theorem decode_undoes_encode_witness :
    blobBytes plainHost.truncNumber (serializeBytes [137, 80, 78, 71]) = [137, 80, 78, 71] ∧
    (writeSerializedBlobToFile plainHost (some (serializeBytes [137, 80, 78, 71]))
      "code.png" []).2 = none ∧
    (writeSerializedBlobToFile plainHost (some (serializeBytes [137, 80, 78, 71]))
      "code.png" []).1.lookup "code.png" = some [137, 80, 78, 71] :=
  decode_undoes_encode plainHost [137, 80, 78, 71] "code.png" [] (by decide) (by decide) rfl

/-- C3 fails as stated: the blob "1,2,256" is decoded without any error, to the
bytes 1, 2, 0, and these are written to the file. -/
theorem decode_out_of_range_succeeds :
    writeSerializedBlobToFile plainHost (some "1,2,256") "code.png" []
      = ([("code.png", [1, 2, 0])], none) := by
  decide

/-- C3 as amended: decoding never fails on a token. Every token between the commas
becomes one byte, there is at least one, a token that is a decimal number below
`2^53` becomes its value modulo 256, the only value `writeSerializedBlobToFile`
can throw on a blob is the one thrown by the write of the file, and without
that the decoded bytes are the contents of the file. The blob "1,2,256"
decodes to 1, 2, 0. -/
theorem decode_never_fails (host : Host) (blob : String) (fileName : String) (files : Files) :
    (blobBytes host.truncNumber blob).length = (splitComma blob.toList).length ∧
    1 ≤ (blobBytes host.truncNumber blob).length ∧
    (∀ b ∈ blobBytes host.truncNumber blob, b < 256) ∧
    (∀ tok v, decimalValue tok = some v → v < 2 ^ 53 →
      tokenToUint8 host.truncNumber tok = v % 256) ∧
    (writeSerializedBlobToFile host (some blob) fileName files).2 = host.writeError fileName ∧
    (writeSerializedBlobToFile host (some blob) fileName files).1.lookup fileName
      = (if (host.writeError fileName).isSome then files.lookup fileName
          else some (blobBytes host.truncNumber blob)) ∧
    blobBytes host.truncNumber "1,2,256" = [1, 2, 0] := by
  refine ⟨by simp [blobBytes], ?_, ?_, ?_, ?_, ?_, rfl⟩
  · have h := splitComma_ne_nil blob.toList
    have : (blobBytes host.truncNumber blob).length = (splitComma blob.toList).length := by
      simp [blobBytes]
    rw [this]
    exact Nat.pos_of_ne_zero (fun e => h (List.length_eq_zero.mp e))
  · intro b hb
    unfold blobBytes at hb
    obtain ⟨tok, _, rfl⟩ := List.mem_map.mp hb
    exact tokenToUint8_lt _ _
  · intro tok v hv hlt
    unfold tokenToUint8
    rw [hv]
    simp only []
    rw [if_pos (by omega)]
  · simp only [writeSerializedBlobToFile, writeFileSync]
    cases host.writeError fileName <;> rfl
  · simp only [writeSerializedBlobToFile, writeFileSync]
    cases host.writeError fileName <;> simp [List.lookup]

/-! ## Claims about the message listener -/

theorem handleMessage_shootToClipboard (host : Host) (data : Option MessageData)
    (st : HostState) :
    handleMessage host ⟨"shootToClipboard", data⟩ st = shootToClipboard host data st := by
  simp [handleMessage]

/-- When the pixels are packed to `ws` and the dimensions are there, the listener
calls the sink once with `ws` and the dimensions, and throws nothing, whatever
the sink does. -/
theorem shootToClipboard_returned (host : Host) (st : HostState) (pixels : PixelArg)
    (ws : List Nat) (width height : Nat) (blob bg : Option String)
    (hws : copyUint8ArrayToUint32Array pixels = .returned ws) :
    (handleMessage host ⟨"shootToClipboard", some ⟨blob, pixels, some ⟨width, height⟩, bg⟩⟩
      st).state.setImageCalls = st.setImageCalls ++ [⟨ws, width, height⟩] ∧
    (handleMessage host ⟨"shootToClipboard", some ⟨blob, pixels, some ⟨width, height⟩, bg⟩⟩
      st).thrown = none := by
  rw [handleMessage_shootToClipboard]
  simp only [shootToClipboard, hws]
  cases host.setImageError ws width height <;> exact ⟨rfl, rfl⟩

/-- C4 fails as stated: when the pixels 255, 0, 0, 255, 0, 255, 0, 255 arrive as a
plain `Array`, as the message is written, `copyUint8ArrayToUint32Array` returns
an array of no words, and the sink is called with that empty buffer and the
size 2 by 1, not with the words `0xFF0000FF`, `0x00FF00FF`. -/
theorem plain_array_pixels_empty_buffer :
    copyUint8ArrayToUint32Array (.plainArray [255, 0, 0, 255, 0, 255, 0, 255])
      = .returned [] ∧
    (handleMessage plainHost
      (clipboardMessage (.plainArray [255, 0, 0, 255, 0, 255, 0, 255]) (some ⟨2, 1⟩))
      freshState).state.setImageCalls = [⟨[], 2, 1⟩] := by
  decide

/-- C4 as amended: handling a `shootToClipboard` message whose pixels are a
`Uint8Array` of length `4 * n` and whose dimensions are `width` and `height`
calls `clip.setImage` exactly once, with the `n` words that
`copyUint8ArrayToUint32Array` returns for the pixels and with that width and
height; for the `Uint8Array` 255, 0, 0, 255, 0, 255, 0, 255 and the size 2 by 1
the sink receives the two words `0xFF0000FF`, `0x00FF00FF` and the size 2 by
1. -/
theorem shootToClipboard_calls_sink (host : Host) (st : HostState) (buf : List Nat)
    (n width height : Nat) (blob bg : Option String)
    (hlen : buf.length = 4 * n) (hbytes : ∀ b ∈ buf, b < 256) :
    (∃ ws, copyUint8ArrayToUint32Array (.uint8Array buf) = .returned ws ∧ ws.length = n ∧
      (∀ i, i < n → ws[i]? = some (wordAt buf i)) ∧
      (handleMessage host
        ⟨"shootToClipboard", some ⟨blob, .uint8Array buf, some ⟨width, height⟩, bg⟩⟩
        st).state.setImageCalls = st.setImageCalls ++ [⟨ws, width, height⟩] ∧
      (handleMessage host
        ⟨"shootToClipboard", some ⟨blob, .uint8Array buf, some ⟨width, height⟩, bg⟩⟩
        st).thrown = none) ∧
    (handleMessage host
      ⟨"shootToClipboard",
        some ⟨blob, .uint8Array [255, 0, 0, 255, 0, 255, 0, 255], some ⟨2, 1⟩, bg⟩⟩
      st).state.setImageCalls = st.setImageCalls ++ [⟨[0xFF0000FF, 0x00FF00FF], 2, 1⟩] := by
  have hn : buf.length / 4 = n := by omega
  have hret := copy_returns_wordsOf buf hbytes
  rw [hn] at hret
  refine ⟨⟨wordsOf buf n, hret, wordsOf_length buf n,
    fun i hi => wordsOf_getElem? buf n i hi,
    shootToClipboard_returned host st _ _ width height blob bg hret⟩, ?_⟩
  exact (shootToClipboard_returned host st _ _ 2 1 blob bg (by decide)).1

/-- C4 as amended, at the two pixels of the example as a `Uint8Array`, in the
state right after `activate`. -/
theorem shootToClipboard_calls_sink_witness :
    (∃ ws, copyUint8ArrayToUint32Array (.uint8Array [255, 0, 0, 255, 0, 255, 0, 255])
        = .returned ws ∧ ws.length = 2 ∧
      (∀ i, i < 2 → ws[i]? = some (wordAt [255, 0, 0, 255, 0, 255, 0, 255] i)) ∧
      (handleMessage plainHost
        ⟨"shootToClipboard",
          some ⟨none, .uint8Array [255, 0, 0, 255, 0, 255, 0, 255], some ⟨2, 1⟩, none⟩⟩
        freshState).state.setImageCalls = freshState.setImageCalls ++ [⟨ws, 2, 1⟩] ∧
      (handleMessage plainHost
        ⟨"shootToClipboard",
          some ⟨none, .uint8Array [255, 0, 0, 255, 0, 255, 0, 255], some ⟨2, 1⟩, none⟩⟩
        freshState).thrown = none) ∧
    (handleMessage plainHost
      ⟨"shootToClipboard",
        some ⟨none, .uint8Array [255, 0, 0, 255, 0, 255, 0, 255], some ⟨2, 1⟩, none⟩⟩
      freshState).state.setImageCalls
        = freshState.setImageCalls ++ [⟨[0xFF0000FF, 0x00FF00FF], 2, 1⟩] :=
  shootToClipboard_calls_sink plainHost freshState [255, 0, 0, 255, 0, 255, 0, 255] 2 2 1
    none none (by decide) (by decide)

/-- C7 fails as stated: a `shootToClipboard` message without pixels makes the
listener throw the `TypeError` of `copyUint8ArrayToUint32Array`, which is called
before the `try`. -/
theorem missing_pixels_propagate :
    (handleMessage plainHost (clipboardMessage .missing (some ⟨2, 1⟩)) freshState).thrown
      = some (.typeError "Missing argument") := by
  decide

/-- C7 as amended: when the message carries a pixel array, whatever its length,
the listener throws nothing: a value thrown by the sink is caught and passed to
`console.log`, and so is the `TypeError` of reading the dimensions when these
are absent. When the pixels are absent, the `TypeError` "Missing argument" of
`copyUint8ArrayToUint32Array` leaves the listener and the state is as before. -/
theorem clipboard_failures_caught (host : Host) (st : HostState) (buf : List Nat)
    (dims : Option Dimensions) (blob bg : Option String) :
    (handleMessage host ⟨"shootToClipboard", some ⟨blob, .uint8Array buf, dims, bg⟩⟩
      st).thrown = none ∧
    (dims = none →
      (handleMessage host ⟨"shootToClipboard", some ⟨blob, .uint8Array buf, dims, bg⟩⟩
        st).state.consoleLog = st.consoleLog ++
          [.typeError "Cannot read properties of undefined (reading 'width')"]) ∧
    (∀ ws width height e, copyUint8ArrayToUint32Array (.uint8Array buf) = .returned ws →
      dims = some ⟨width, height⟩ → host.setImageError ws width height = some e →
      (handleMessage host ⟨"shootToClipboard", some ⟨blob, .uint8Array buf, dims, bg⟩⟩
        st).state.consoleLog = st.consoleLog ++ [e]) ∧
    handleMessage host ⟨"shootToClipboard", some ⟨blob, .missing, dims, bg⟩⟩ st
      = ⟨st, some (.typeError "Missing argument")⟩ := by
  obtain ⟨ws, hws⟩ := pack_returns_on_array buf
  refine ⟨?_, ?_, ?_, ?_⟩
  · rw [handleMessage_shootToClipboard]
    simp only [shootToClipboard, hws]
    cases dims with
    | none => rfl
    | some d => cases h : host.setImageError ws d.width d.height <;> simp [h]
  · intro hd
    subst hd
    rw [handleMessage_shootToClipboard]
    simp only [shootToClipboard, hws]
  · intro ws2 width height e hws2 hd he
    subst hd
    rw [handleMessage_shootToClipboard]
    simp only [shootToClipboard, hws2, he]
  · rw [handleMessage_shootToClipboard]
    rfl

/-- C7 as amended, at a sink that rejects every image and at absent dimensions. -/
theorem clipboard_failures_caught_witness :
    (handleMessage noClipboardHost (clipboardMessage (.uint8Array [1, 2, 3, 4]) (some ⟨1, 1⟩))
      freshState).thrown = none ∧
    (handleMessage noClipboardHost (clipboardMessage (.uint8Array [1, 2, 3, 4]) (some ⟨1, 1⟩))
      freshState).state.consoleLog = [.hostError "clipboard unavailable"] ∧
    (handleMessage plainHost (clipboardMessage (.uint8Array [1, 2, 3]) none)
      freshState).thrown = none :=
  ⟨(clipboard_failures_caught noClipboardHost freshState [1, 2, 3, 4] (some ⟨1, 1⟩)
      none none).1,
    (clipboard_failures_caught noClipboardHost freshState [1, 2, 3, 4] (some ⟨1, 1⟩)
      none none).2.2.1 [0x01020304] 1 1 _ (by decide) rfl rfl,
    (clipboard_failures_caught plainHost freshState [1, 2, 3] none none none).1⟩

/-- C5: in a state with an open panel, the message `updateBgColor` with the colour
`c` followed by the message `getAndUpdateCacheAndSettings` makes the listener
post `restoreBgColor` with the colour `c` (and then the settings) to the panel
in the variable `panel`, and nothing is thrown; with no colour in the store,
`getAndUpdateCacheAndSettings` alone posts `restoreBgColor` with "#2e3440". -/
theorem bgColor_restored (host : Host) (st : HostState) (p q : Nat) (c : String)
    (hpanel : st.panel = some p) (hq : q < st.panels) (hopen : q ∉ st.disposed) :
    (run host [.message q (updateBgColorMessage c), .message q queryStateMessage] st).posted
      = st.posted ++ [(p, .restoreBgColor c), (p, settingsMessage st)] ∧
    (run host [.message q (updateBgColorMessage c), .message q queryStateMessage] st).uncaught
      = st.uncaught ∧
    (st.globalState.lookup "polacode.bgColor" = none →
      (run host [.message q queryStateMessage] st).posted
        = st.posted ++ [(p, .restoreBgColor "#2e3440"), (p, settingsMessage st)]) := by
  refine ⟨?_, ?_, ?_⟩
  · simp [run, step, hq, hopen, handleMessage, updateBgColorMessage, queryStateMessage, settle,
      postMessage, syncSettings, hpanel, globalStateGet, globalStateUpdate, List.lookup,
      settingsMessage]
  · simp [run, step, hq, hopen, handleMessage, updateBgColorMessage, queryStateMessage, settle,
      postMessage, syncSettings, hpanel]
  · intro hnone
    simp [run, step, hq, hopen, handleMessage, queryStateMessage, settle,
      postMessage, syncSettings, hpanel, globalStateGet, hnone, settingsMessage]

/-- C5, in the state after the command `polacode.activate`, for the colour
"#ff0000". -/
theorem bgColor_restored_witness :
    (run plainHost [.message 0 (updateBgColorMessage "#ff0000"), .message 0 queryStateMessage]
      (step plainHost .activateCommand freshState)).posted
      = (step plainHost .activateCommand freshState).posted ++
        [(0, .restoreBgColor "#ff0000"),
          (0, settingsMessage (step plainHost .activateCommand freshState))] ∧
    (run plainHost [.message 0 (updateBgColorMessage "#ff0000"), .message 0 queryStateMessage]
      (step plainHost .activateCommand freshState)).uncaught
      = (step plainHost .activateCommand freshState).uncaught ∧
    ((step plainHost .activateCommand freshState).globalState.lookup "polacode.bgColor" = none →
      (run plainHost [.message 0 queryStateMessage]
        (step plainHost .activateCommand freshState)).posted
        = (step plainHost .activateCommand freshState).posted ++
          [(0, .restoreBgColor "#2e3440"),
            (0, settingsMessage (step plainHost .activateCommand freshState))]) :=
  bgColor_restored plainHost (step plainHost .activateCommand freshState) 0 0 "#ff0000"
    (by decide) (by decide) (by decide)

/-! ## Claims about the selection listener -/

theorem settle_posted (o : Outcome) : (settle o).posted = o.state.posted := by
  unfold settle
  split <;> rfl

theorem selectionListener_posted (selections : List Selection) (st : HostState) :
    (selectionListener selections st).state.posted = st.posted := by
  unfold selectionListener
  split
  · rfl
  · split
    · rfl
    · simp only []
      split <;> rfl

/-- A change of the selection posts nothing, however many listeners are
attached. -/
theorem selectionChange_posted (host : Host) (selections : List Selection) (st : HostState) :
    (step host (.selectionChange selections) st).posted = st.posted := by
  have h : ∀ (ls : List Nat) (s : HostState),
      (ls.foldl (fun s _ => settle (selectionListener selections s)) s).posted = s.posted := by
    intro ls
    induction ls with
    | nil => intro s; rfl
    | cons l ls ih =>
      intro s
      rw [List.foldl_cons, ih, settle_posted, selectionListener_posted]
  exact h st.selectionListeners st

theorem postMessage_count_update (msg : SyncMessage) (st : HostState) (q : Nat)
    (hmsg : msg ≠ .update) :
    (postMessage msg st).state.posted.count (q, SyncMessage.update)
      = st.posted.count (q, SyncMessage.update) := by
  unfold postMessage
  split
  · simp [List.count_append, List.count_singleton, hmsg]
  · rfl

theorem syncSettings_count_update (st : HostState) (q : Nat) :
    (syncSettings st).state.posted.count (q, SyncMessage.update)
      = st.posted.count (q, SyncMessage.update) := by
  unfold syncSettings
  exact postMessage_count_update _ st q (by simp)

theorem shootToClipboard_posted (host : Host) (data : Option MessageData) (st : HostState) :
    (shootToClipboard host data st).state.posted = st.posted := by
  unfold shootToClipboard
  split
  · rfl
  · split
    · rfl
    · rfl
    · split
      · rfl
      · simp only []
        split <;> rfl

theorem handleMessage_count_update (host : Host) (msg : Message) (st : HostState) (q : Nat) :
    (handleMessage host msg st).state.posted.count (q, SyncMessage.update)
      = st.posted.count (q, SyncMessage.update) := by
  unfold handleMessage
  split
  · rfl
  · split
    · rw [shootToClipboard_posted]
    · split
      · have h1 := postMessage_count_update
          (.restoreBgColor (globalStateGet st.globalState "polacode.bgColor" "#2e3440")) st q
          (by simp)
        split
        · next st1 e heq => rw [heq] at h1; exact h1
        · next st1 heq =>
          rw [heq] at h1
          rw [syncSettings_count_update, h1]
      · split
        · split <;> rfl
        · split <;> rfl

theorem saveDialogThen_posted (host : Host) (data : Option MessageData) (uri : Option String)
    (st : HostState) : (saveDialogThen host data uri st).state.posted = st.posted := by
  unfold saveDialogThen
  split
  · rfl
  · split
    · rfl
    · split <;> rfl

/-- No event adds an `update` message for any panel. -/
theorem step_count_update (host : Host) (ev : Event) (st : HostState) (q : Nat) :
    (step host ev st).posted.count (q, SyncMessage.update)
      = st.posted.count (q, SyncMessage.update) := by
  cases ev with
  | activateCommand =>
    simp only [step]
    split
    · next st2 e heq =>
      have h := postMessage_count_update (.init st.fontFamily
        (globalStateGet st.globalState "polacode.bgColor" "#2e3440"))
        { st with
          panel := some st.panels
          panels := st.panels + 1
          selectionListeners := st.selectionListeners ++ [st.panels] } q (by simp)
      rw [heq] at h
      rw [settle_posted]
      exact h
    · next st2 heq =>
      have h := postMessage_count_update (.init st.fontFamily
        (globalStateGet st.globalState "polacode.bgColor" "#2e3440"))
        { st with
          panel := some st.panels
          panels := st.panels + 1
          selectionListeners := st.selectionListeners ++ [st.panels] } q (by simp)
      rw [heq] at h
      rw [settle_posted, syncSettings_count_update]
      exact h
  | deserialize innerHTML =>
    simp only [step]
    split
    · next st2 e heq =>
      have h := postMessage_count_update (.restore innerHTML
        (globalStateGet st.globalState "polacode.bgColor" "#2e3440"))
        { st with panel := some st.panels, panels := st.panels + 1 } q (by simp)
      rw [heq] at h
      rw [settle_posted]
      exact h
    · next st2 heq =>
      have h := postMessage_count_update (.restore innerHTML
        (globalStateGet st.globalState "polacode.bgColor" "#2e3440"))
        { st with panel := some st.panels, panels := st.panels + 1 } q (by simp)
      rw [heq] at h
      exact h
  | dispose p =>
    simp only [step]
    split <;> rfl
  | selectionChange selections => rw [selectionChange_posted]
  | message p msg =>
    simp only [step]
    split
    · rw [settle_posted, handleMessage_count_update]
    · rfl
  | saveDialogAnswer i uri =>
    simp only [step]
    split
    · rfl
    · rw [settle_posted, saveDialogThen_posted]

theorem run_count_update (host : Host) (evs : List Event) (st : HostState) (q : Nat) :
    (run host evs st).posted.count (q, SyncMessage.update)
      = st.posted.count (q, SyncMessage.update) := by
  induction evs generalizing st with
  | nil => rfl
  | cons ev evs ih =>
    show (run host evs (step host ev st)).posted.count _ = _
    rw [ih, step_count_update]

theorem run_append (host : Host) (evs later : List Event) (st : HostState) :
    run host (evs ++ later) st = run host later (run host evs st) := by
  simp [run, List.foldl_append]

/-- C8: once a panel has been disposed, no later event, a change of the selection
in particular, posts an `update` message to it: after any further events the
`update` messages posted to the panel are as many as at its disposal, and a
change of the selection leaves the posted messages as they are. The disposal
of an open panel detaches the selection listener set up with it; and a
listener that is still attached throws at `panel.postMessage` and posts
nothing. -/
theorem no_update_after_dispose (host : Host) (st : HostState) (evs later : List Event)
    (p : Nat) (selections : List Selection)
    (_hdisp : p ∈ (run host evs st).disposed) :
    (run host (evs ++ later) st).posted.count (p, SyncMessage.update)
      = (run host evs st).posted.count (p, SyncMessage.update) ∧
    (step host (.selectionChange selections) (run host (evs ++ later) st)).posted
      = (run host (evs ++ later) st).posted ∧
    (∀ s : HostState, p ∉ (step host (.dispose p) s).selectionListeners ∨
      step host (.dispose p) s = s) := by
  refine ⟨?_, selectionChange_posted host selections _, ?_⟩
  · rw [run_append, run_count_update]
  · intro s
    simp only [step]
    split
    · left
      simp [List.mem_filter]
    · right
      rfl

/-- C8, after the command has run twice and the second panel has been disposed: a
change to a selection that is not empty posts no `update` to that panel. -/
theorem no_update_after_dispose_witness :
    (run plainHost ([.activateCommand, .activateCommand, .dispose 1]
        ++ [.selectionChange [⟨false⟩]]) freshState).posted.count (1, SyncMessage.update)
      = (run plainHost [.activateCommand, .activateCommand, .dispose 1]
          freshState).posted.count (1, SyncMessage.update) ∧
    (step plainHost (.selectionChange [⟨false⟩])
      (run plainHost ([.activateCommand, .activateCommand, .dispose 1]
        ++ [.selectionChange [⟨false⟩]]) freshState)).posted
      = (run plainHost ([.activateCommand, .activateCommand, .dispose 1]
        ++ [.selectionChange [⟨false⟩]]) freshState).posted ∧
    (∀ s : HostState, 1 ∉ (step plainHost (.dispose 1) s).selectionListeners ∨
      step plainHost (.dispose 1) s = s) :=
  no_update_after_dispose plainHost freshState
    [.activateCommand, .activateCommand, .dispose 1] [.selectionChange [⟨false⟩]] 1
    [⟨false⟩] (by decide)

/-- At the events of the witness of C8 the listener of the first panel is still
attached; it runs the copy command, throws the `TypeError` of line 166, and no
`update` is among the posted messages. -/
theorem selection_after_dispose_throws :
    (run plainHost [.activateCommand, .activateCommand, .dispose 1]
      freshState).selectionListeners = [0] ∧
    (run plainHost [.activateCommand, .activateCommand, .dispose 1, .selectionChange [⟨false⟩]]
      freshState).uncaught = [.typeError "panel.postMessage is not a function"] ∧
    (run plainHost [.activateCommand, .activateCommand, .dispose 1, .selectionChange [⟨false⟩]]
      freshState).commands = ["editor.action.clipboardCopyAction"] ∧
    ∀ q, (q, SyncMessage.update) ∉
      (run plainHost [.activateCommand, .activateCommand, .dispose 1,
        .selectionChange [⟨false⟩]] freshState).posted := by
  refine ⟨by decide, by decide, by decide, ?_⟩
  intro q hq
  have h := run_count_update plainHost
    [.activateCommand, .activateCommand, .dispose 1, .selectionChange [⟨false⟩]] freshState q
  have h0 : freshState.posted.count (q, SyncMessage.update) = 0 := rfl
  rw [h0] at h
  exact (List.count_eq_zero.mp h) hq

theorem step_saveDialogAnswer (host : Host) (s : HostState) (i : Nat) (uri : Option String)
    (dialog : SaveDialog) (hdlg : s.saveDialogs[i]? = some dialog) :
    step host (.saveDialogAnswer i uri) s
      = settle (saveDialogThen host dialog.data uri
          { s with saveDialogs := s.saveDialogs.eraseIdx i }) := by
  simp only [step, hdlg]

/-- C10: handling a `shoot` message only opens the save dialog, with the last
used location as its default. When the dialog answers with a location `p` and
the write succeeds, the file at `p` holds the decoded bytes of
`data.serializedBlob` and the last used location is `p`. When the dialog is
cancelled, no file is written and the last used location stays; when the write
throws, the files and the last used location stay as well. -/
theorem shoot_writes_on_confirm (host : Host) (st s : HostState) (d : MessageData)
    (blob : String) (i : Nat) (defaultUri p : String)
    (hblob : d.serializedBlob = some blob)
    (hdlg : s.saveDialogs[i]? = some ⟨defaultUri, some d⟩) :
    handleMessage host ⟨"shoot", some d⟩ st
      = ⟨{ st with saveDialogs := st.saveDialogs ++ [⟨st.lastUsedImageUri, some d⟩] }, none⟩ ∧
    (host.writeError p = none →
      (step host (.saveDialogAnswer i (some p)) s).files.lookup p
        = some (blobBytes host.truncNumber blob) ∧
      (step host (.saveDialogAnswer i (some p)) s).lastUsedImageUri = p ∧
      (step host (.saveDialogAnswer i (some p)) s).uncaught = s.uncaught) ∧
    ((step host (.saveDialogAnswer i none) s).files = s.files ∧
      (step host (.saveDialogAnswer i none) s).lastUsedImageUri = s.lastUsedImageUri) ∧
    (∀ e, host.writeError p = some e →
      (step host (.saveDialogAnswer i (some p)) s).files = s.files ∧
      (step host (.saveDialogAnswer i (some p)) s).lastUsedImageUri = s.lastUsedImageUri ∧
      (step host (.saveDialogAnswer i (some p)) s).uncaught = s.uncaught ++ [e]) := by
  refine ⟨by simp [handleMessage], ?_, ?_, ?_⟩
  · intro hw
    rw [step_saveDialogAnswer host s i (some p) _ hdlg]
    simp [saveDialogThen, hblob, writeSerializedBlobToFile, writeFileSync, hw, settle,
      List.lookup]
  · rw [step_saveDialogAnswer host s i none _ hdlg]
    simp [saveDialogThen, settle]
  · intro e he
    rw [step_saveDialogAnswer host s i (some p) _ hdlg]
    simp [saveDialogThen, hblob, writeSerializedBlobToFile, writeFileSync, he, settle]

/-- C10, for the message with the blob "137,80,78,71" right after `activate`: the
dialog it opens is answered with "/tmp/code.png" on a host that accepts the
write, and on a host that rejects it. -/
theorem shoot_writes_on_confirm_witness :
    (handleMessage plainHost ⟨"shoot", some pngData⟩ freshState
      = ⟨{ freshState with
            saveDialogs := freshState.saveDialogs ++ [⟨freshState.lastUsedImageUri, some pngData⟩] },
          none⟩ ∧
    (plainHost.writeError "/tmp/code.png" = none →
      (step plainHost (.saveDialogAnswer 0 (some "/tmp/code.png")) shootState).files.lookup
          "/tmp/code.png" = some (blobBytes plainHost.truncNumber "137,80,78,71") ∧
      (step plainHost (.saveDialogAnswer 0 (some "/tmp/code.png")) shootState).lastUsedImageUri
        = "/tmp/code.png" ∧
      (step plainHost (.saveDialogAnswer 0 (some "/tmp/code.png")) shootState).uncaught
        = shootState.uncaught) ∧
    ((step plainHost (.saveDialogAnswer 0 none) shootState).files = shootState.files ∧
      (step plainHost (.saveDialogAnswer 0 none) shootState).lastUsedImageUri
        = shootState.lastUsedImageUri) ∧
    (∀ e, plainHost.writeError "/tmp/code.png" = some e →
      (step plainHost (.saveDialogAnswer 0 (some "/tmp/code.png")) shootState).files
        = shootState.files ∧
      (step plainHost (.saveDialogAnswer 0 (some "/tmp/code.png")) shootState).lastUsedImageUri
        = shootState.lastUsedImageUri ∧
      (step plainHost (.saveDialogAnswer 0 (some "/tmp/code.png")) shootState).uncaught
        = shootState.uncaught ++ [e])) ∧
    ((step readOnlyHost (.saveDialogAnswer 0 (some "/tmp/code.png")) shootState).files
        = shootState.files ∧
      (step readOnlyHost (.saveDialogAnswer 0 (some "/tmp/code.png")) shootState).lastUsedImageUri
        = shootState.lastUsedImageUri ∧
      (step readOnlyHost (.saveDialogAnswer 0 (some "/tmp/code.png")) shootState).uncaught
        = shootState.uncaught ++ [.hostError "EACCES: permission denied"]) :=
  ⟨shoot_writes_on_confirm plainHost freshState shootState pngData "137,80,78,71" 0
      "/home/user/Desktop/code.png" "/tmp/code.png" rfl (by decide),
    (shoot_writes_on_confirm readOnlyHost freshState shootState pngData "137,80,78,71" 0
      "/home/user/Desktop/code.png" "/tmp/code.png" rfl (by decide)).2.2.2 _ rfl⟩

end Polacode
